import Mathlib

/-!
Verification development for the automated clock-in system.

The definitions in this file are a shallow embedding of the Python source:

  * `src/utils/advanced_config.py`  -- class `CircuitBreaker`
  * `src/utils/delay_manager.py`    -- class `DelayManager`
  * `src/utils/rut_validator.py`    -- class `RutValidator`
  * `src/config.py`                 -- `Config.get_email_destinations`
  * `src/services/email_service.py` -- `EmailService.send_email`
  * `src/services/marcaje_service.py` and
    `src/services/enhanced_marcaje_service.py` -- `process_rut`

Wall-clock time is modelled by an explicit integer parameter (seconds for
the circuit breaker, an abstract hour value for action-kind decisions);
randomness and the external browser action are modelled by explicit
oracles passed as arguments.  String case folding and digit tests are
modelled at ASCII precision, the character range the identifiers use.
-/

/-- The three circuit breaker states.  The Python source stores them as the
strings CLOSED, OPEN and HALF_OPEN in the field `self.state`. -/
inductive CBState where
  | closed : CBState
  | opened : CBState
  | halfOpen : CBState
deriving DecidableEq, Repr

/-- State of class `CircuitBreaker` in `src/utils/advanced_config.py`.
Timestamps are integers (seconds); `last_failure_time` starts as `None`. -/
structure CircuitBreaker where
  threshold : Nat
  reset_timeout : Int
  failure_count : Nat
  last_failure_time : Option Int
  state : CBState
deriving DecidableEq, Repr

/-- The `CircuitBreaker.__init__` constructor: zero failures, no failure
timestamp, state CLOSED. -/
def CircuitBreaker.init (threshold : Nat) (reset_timeout : Int) : CircuitBreaker :=
  ⟨threshold, reset_timeout, 0, none, CBState.closed⟩

/-- Model of `CircuitBreaker.can_execute`.  `now` is the value of
`datetime.now()` in seconds.  Returns the boolean result together with the
possibly updated breaker (OPEN moves to HALF_OPEN when strictly more than
`reset_timeout` seconds have passed since the last failure). -/
def CircuitBreaker.can_execute (cb : CircuitBreaker) (now : Int) : Bool × CircuitBreaker :=
  match cb.state with
  | CBState.closed => (true, cb)
  | CBState.opened =>
    match cb.last_failure_time with
    | some t =>
      if now - t > cb.reset_timeout then
        (true, { cb with state := CBState.halfOpen })
      else
        (false, cb)
    | none => (false, cb)
  | CBState.halfOpen => (true, cb)

/-- Model of `CircuitBreaker.record_success`: reset the failure counter and
close the breaker. -/
def CircuitBreaker.record_success (cb : CircuitBreaker) : CircuitBreaker :=
  { cb with failure_count := 0, state := CBState.closed }

/-- Model of `CircuitBreaker.record_failure`: increment the counter, stamp
the failure time, and open the breaker once the counter reaches the
threshold. -/
def CircuitBreaker.record_failure (cb : CircuitBreaker) (now : Int) : CircuitBreaker :=
  if cb.threshold ≤ cb.failure_count + 1 then
    ⟨cb.threshold, cb.reset_timeout, cb.failure_count + 1, some now, CBState.opened⟩
  else
    ⟨cb.threshold, cb.reset_timeout, cb.failure_count + 1, some now, cb.state⟩

/-- Fold a list of failure timestamps through `record_failure`. -/
def CircuitBreaker.apply_failures (cb : CircuitBreaker) (ts : List Int) : CircuitBreaker :=
  ts.foldl CircuitBreaker.record_failure cb

/-- States of the breaker reachable from `init` under any interleaving of
the three public operations, each at an arbitrary clock value. -/
inductive CircuitBreaker.Reachable (t : Nat) (rt : Int) : CircuitBreaker → Prop where
  | init : CircuitBreaker.Reachable t rt (CircuitBreaker.init t rt)
  | can_exec (now : Int) {cb : CircuitBreaker} :
      CircuitBreaker.Reachable t rt cb →
      CircuitBreaker.Reachable t rt (cb.can_execute now).2
  | rec_success {cb : CircuitBreaker} :
      CircuitBreaker.Reachable t rt cb →
      CircuitBreaker.Reachable t rt cb.record_success
  | rec_failure (now : Int) {cb : CircuitBreaker} :
      CircuitBreaker.Reachable t rt cb →
      CircuitBreaker.Reachable t rt (cb.record_failure now)

theorem CircuitBreaker.apply_failures_count (cb : CircuitBreaker) (ts : List Int) :
    (cb.apply_failures ts).failure_count = cb.failure_count + ts.length ∧
    (cb.apply_failures ts).threshold = cb.threshold ∧
    (cb.apply_failures ts).reset_timeout = cb.reset_timeout := by
  induction ts generalizing cb with
  | nil => simp [CircuitBreaker.apply_failures]
  | cons a l ih =>
    have h := ih (cb.record_failure a)
    simp only [CircuitBreaker.apply_failures, List.foldl_cons] at *
    refine ⟨?_, ?_, ?_⟩
    · rw [h.1]
      simp only [CircuitBreaker.record_failure]
      split <;> simp <;> omega
    · rw [h.2.1]
      simp only [CircuitBreaker.record_failure]
      split <;> simp
    · rw [h.2.2]
      simp only [CircuitBreaker.record_failure]
      split <;> simp

/-- Decidable form of the elapsed-timeout test inside `can_execute`. -/
def CircuitBreaker.timeout_elapsed (cb : CircuitBreaker) (now : Int) : Bool :=
  match cb.last_failure_time with
  | some t => decide (now - t > cb.reset_timeout)
  | none => false

/-- Helper: the breaker returned by `can_execute` is either unchanged, or,
exactly when the breaker is OPEN and the reset timeout has elapsed, the same
breaker with its state moved to HALF_OPEN. -/
theorem CircuitBreaker.can_execute_snd (cb : CircuitBreaker) (now : Int) :
    (cb.can_execute now).2 =
      if cb.state = CBState.opened ∧ cb.timeout_elapsed now = true then
        { cb with state := CBState.halfOpen }
      else cb := by
  unfold CircuitBreaker.can_execute CircuitBreaker.timeout_elapsed
  rcases hst : cb.state <;> rcases hl : cb.last_failure_time <;>
    simp [hst, hl] <;> split <;> simp_all

/-- Helper: the boolean returned by `can_execute` is true unless the breaker
is OPEN with the reset timeout not yet elapsed. -/
theorem CircuitBreaker.can_execute_fst (cb : CircuitBreaker) (now : Int) :
    (cb.can_execute now).1 =
      (decide (cb.state ≠ CBState.opened) || cb.timeout_elapsed now) := by
  unfold CircuitBreaker.can_execute CircuitBreaker.timeout_elapsed
  rcases hst : cb.state <;> rcases hl : cb.last_failure_time <;>
    simp [hst, hl] <;> split <;> simp_all

/-- Helper invariant: every reachable breaker keeps its configuration, and
whenever it is not CLOSED its failure counter has reached the threshold and
a failure timestamp is recorded. -/
theorem CircuitBreaker.reachable_inv {t : Nat} {rt : Int} {cb : CircuitBreaker}
    (h : CircuitBreaker.Reachable t rt cb) :
    cb.threshold = t ∧ cb.reset_timeout = rt ∧
    (cb.state ≠ CBState.closed →
      t ≤ cb.failure_count ∧ ∃ τ, cb.last_failure_time = some τ) := by
  induction h with
  | init => simp [CircuitBreaker.init]
  | can_exec now hr ih =>
    obtain ⟨h1, h2, h3⟩ := ih
    rw [CircuitBreaker.can_execute_snd]
    split
    · rename_i hcond
      refine ⟨h1, h2, fun _ => h3 ?_⟩
      rw [hcond.1]
      simp
    · exact ⟨h1, h2, h3⟩
  | rec_success hr ih => simp [CircuitBreaker.record_success, ih.1, ih.2.1]
  | rec_failure now hr ih =>
    obtain ⟨h1, h2, h3⟩ := ih
    unfold CircuitBreaker.record_failure
    split
    · rename_i hge
      refine ⟨h1, h2, fun _ => ⟨?_, now, rfl⟩⟩
      dsimp only
      omega
    · rename_i hlt
      refine ⟨h1, h2, fun hne => ⟨?_, now, rfl⟩⟩
      have h4 := h3 hne
      dsimp only
      omega

/-- C3: starting from a Closed breaker with threshold t at least 1, after t
consecutive record_failure calls (at times ts then τ) with no intervening
record_success, can_execute is false, becomes true exactly when strictly
more than reset_timeout seconds have passed since the last failure, and in
that case the state moves to HALF_OPEN as a side effect. -/
theorem circuit_breaker_opens_after_threshold_failures
    (t : Nat) (rt : Int) (ts : List Int) (τ now : Int)
    (h : ts.length + 1 = t) :
    ((CircuitBreaker.init t rt).apply_failures (ts ++ [τ])).state = CBState.opened ∧
    ((((CircuitBreaker.init t rt).apply_failures (ts ++ [τ])).can_execute now).1 = true ↔
      now - τ > rt) ∧
    (now - τ > rt →
      ((((CircuitBreaker.init t rt).apply_failures (ts ++ [τ])).can_execute now).2.state =
        CBState.halfOpen)) := by
  have hfold : (CircuitBreaker.init t rt).apply_failures (ts ++ [τ]) =
      ((CircuitBreaker.init t rt).apply_failures ts).record_failure τ := by
    unfold CircuitBreaker.apply_failures
    rw [List.foldl_append]
    rfl
  have hc := CircuitBreaker.apply_failures_count (CircuitBreaker.init t rt) ts
  have hcb : (CircuitBreaker.init t rt).apply_failures (ts ++ [τ]) =
      ⟨t, rt, ts.length + 1, some τ, CBState.opened⟩ := by
    rw [hfold]
    unfold CircuitBreaker.record_failure
    rw [hc.1, hc.2.1, hc.2.2]
    simp only [CircuitBreaker.init, Nat.zero_add]
    split
    · rfl
    · omega
  rw [hcb]
  refine ⟨rfl, ?_, ?_⟩
  · unfold CircuitBreaker.can_execute
    dsimp only
    split <;> simp_all
  · intro hgt
    unfold CircuitBreaker.can_execute
    dsimp only
    split <;> simp_all

/-- Witness for C3 at t = 1, reset timeout 60, a single failure at time 0,
queried at time 100. -/
theorem circuit_breaker_opens_after_threshold_failures_witness :
    ((CircuitBreaker.init 1 60).apply_failures ([] ++ [0])).state = CBState.opened ∧
    ((((CircuitBreaker.init 1 60).apply_failures ([] ++ [0])).can_execute 100).1 = true ↔
      (100 : Int) - 0 > 60) ∧
    ((100 : Int) - 0 > 60 →
      ((((CircuitBreaker.init 1 60).apply_failures ([] ++ [0])).can_execute 100).2.state =
        CBState.halfOpen)) :=
  circuit_breaker_opens_after_threshold_failures 1 60 [] 0 100 (by decide)

/-- C10: can_execute changes none of failure_count, last_failure_time,
threshold and reset_timeout, and it changes the state field exactly in the
single case where the breaker is OPEN and strictly more than reset_timeout
seconds have elapsed since the recorded last failure, in which case the
state becomes HALF_OPEN; in every other case the breaker is returned
unchanged. -/
theorem can_execute_is_a_pure_read_except_half_open
    (cb : CircuitBreaker) (now : Int) :
    (cb.can_execute now).2.failure_count = cb.failure_count ∧
    (cb.can_execute now).2.last_failure_time = cb.last_failure_time ∧
    (cb.can_execute now).2.threshold = cb.threshold ∧
    (cb.can_execute now).2.reset_timeout = cb.reset_timeout ∧
    (cb.can_execute now).2 =
      (if cb.state = CBState.opened ∧ cb.timeout_elapsed now = true then
        { cb with state := CBState.halfOpen }
      else cb) := by
  rw [CircuitBreaker.can_execute_snd cb now]
  split <;> simp_all

/-- C4: lifecycle of every reachable breaker: the initial state is CLOSED;
record_failure moves it to OPEN whenever the new counter reaches the
threshold; an OPEN breaker has a recorded last failure time and moves to
HALF_OPEN through can_execute once the reset timeout has elapsed; and from
every reachable HALF_OPEN state, record_success moves it to CLOSED while
record_failure moves it back to OPEN. -/
theorem circuit_breaker_lifecycle {t : Nat} {rt : Int} {cb : CircuitBreaker}
    (h : CircuitBreaker.Reachable t rt cb) :
    (CircuitBreaker.init t rt).state = CBState.closed ∧
    (∀ now : Int, t ≤ (cb.record_failure now).failure_count →
      (cb.record_failure now).state = CBState.opened) ∧
    (cb.state = CBState.opened →
      ∃ τ, cb.last_failure_time = some τ ∧
        ∀ now : Int, now - τ > rt →
          (cb.can_execute now).1 = true ∧
          (cb.can_execute now).2.state = CBState.halfOpen) ∧
    (cb.state = CBState.halfOpen →
      cb.record_success.state = CBState.closed ∧
      ∀ now : Int, (cb.record_failure now).state = CBState.opened) := by
  obtain ⟨h1, h2, h3⟩ := CircuitBreaker.reachable_inv h
  refine ⟨rfl, ?_, ?_, ?_⟩
  · intro now hle
    unfold CircuitBreaker.record_failure at *
    split at hle
    · split <;> simp_all
    · split <;> dsimp only at * <;> omega
  · intro hopen
    obtain ⟨hcnt, τ, hτ⟩ := h3 (by rw [hopen]; simp)
    refine ⟨τ, hτ, fun now hgt => ?_⟩
    unfold CircuitBreaker.can_execute
    rw [hopen, hτ]
    simp [h2, hgt]
  · intro hhalf
    have hcnt := (h3 (by rw [hhalf]; simp)).1
    refine ⟨rfl, fun now => ?_⟩
    unfold CircuitBreaker.record_failure
    split
    · rfl
    · omega

/-- Witness for C4 at the reachable HALF_OPEN breaker obtained by one
failure at time 0 under threshold 1 followed by a successful gate check at
time 61 (timeout 60). -/
theorem circuit_breaker_lifecycle_witness :
    (CircuitBreaker.init 1 60).state = CBState.closed ∧
    (∀ now : Int, 1 ≤ (((((CircuitBreaker.init 1 60).record_failure 0).can_execute 61).2).record_failure now).failure_count →
      (((((CircuitBreaker.init 1 60).record_failure 0).can_execute 61).2).record_failure now).state = CBState.opened) ∧
    (((((CircuitBreaker.init 1 60).record_failure 0).can_execute 61).2).state = CBState.opened →
      ∃ τ, ((((CircuitBreaker.init 1 60).record_failure 0).can_execute 61).2).last_failure_time = some τ ∧
        ∀ now : Int, now - τ > 60 →
          (((((CircuitBreaker.init 1 60).record_failure 0).can_execute 61).2).can_execute now).1 = true ∧
          (((((CircuitBreaker.init 1 60).record_failure 0).can_execute 61).2).can_execute now).2.state = CBState.halfOpen) ∧
    (((((CircuitBreaker.init 1 60).record_failure 0).can_execute 61).2).state = CBState.halfOpen →
      ((((CircuitBreaker.init 1 60).record_failure 0).can_execute 61).2).record_success.state = CBState.closed ∧
      ∀ now : Int, (((((CircuitBreaker.init 1 60).record_failure 0).can_execute 61).2).record_failure now).state = CBState.opened) :=
  circuit_breaker_lifecycle
    (CircuitBreaker.Reachable.can_exec 61
      (CircuitBreaker.Reachable.rec_failure 0 CircuitBreaker.Reachable.init))

/-- ASCII model of the per-character effect of Python str.lower, which the
validator and the destination logic apply to identifier tokens. -/
def pyLower (c : Char) : Char :=
  match c with
  | 'A' => 'a' | 'B' => 'b' | 'C' => 'c' | 'D' => 'd' | 'E' => 'e' | 'F' => 'f'
  | 'G' => 'g' | 'H' => 'h' | 'I' => 'i' | 'J' => 'j' | 'K' => 'k' | 'L' => 'l'
  | 'M' => 'm' | 'N' => 'n' | 'O' => 'o' | 'P' => 'p' | 'Q' => 'q' | 'R' => 'r'
  | 'S' => 's' | 'T' => 't' | 'U' => 'u' | 'V' => 'v' | 'W' => 'w' | 'X' => 'x'
  | 'Y' => 'y' | 'Z' => 'z'
  | other => other

/-- Model of Python str.isdigit at ASCII precision: nonempty and every
character a decimal digit. -/
def pyIsDigit (s : List Char) : Bool :=
  !s.isEmpty && s.all Char.isDigit

/-- Model of `RutValidator.is_valid_rut` in `src/utils/rut_validator.py`,
on the character list of the token: lowercase the token, require length 8
to 9, a final character that is a digit or the letter k, and digits
everywhere before it.  The Python try/except wrapper only matters for
non-string inputs, which the embedding excludes by typing. -/
def RutValidator.is_valid_rut (rut : List Char) : Bool :=
  let r := rut.map pyLower
  if !(8 ≤ r.length && r.length ≤ 9) then false
  else
    match r.getLast? with
    | none => false
    | some c =>
      if !c.isDigit && !(c == 'k') then false
      else if !(pyIsDigit (r.dropLast)) then false
      else true

theorem pyLower_isDigit (c : Char) : (pyLower c).isDigit = c.isDigit := by
  unfold pyLower
  split <;> rfl

theorem pyLower_eq_k (c : Char) : (pyLower c = 'k') ↔ (c = 'k' ∨ c = 'K') := by
  unfold pyLower
  split <;> simp_all

/-- Helper: mapping a function over a list preserves emptiness. -/
theorem isEmpty_map (f : Char → Char) (l : List Char) : (l.map f).isEmpty = l.isEmpty := by
  cases l <;> rfl

/-- C9: the validator accepts a token exactly when its length is 8 or 9,
its last character is a decimal digit or the letter k in either case, and
every preceding character is a decimal digit.  The embedded function is
pure and total, which settles the no-side-effects and never-raises part of
the claim. -/
theorem is_valid_rut_correct (rut : List Char) :
    RutValidator.is_valid_rut rut = true ↔
      ((rut.length = 8 ∨ rut.length = 9) ∧
       (∃ c, rut.getLast? = some c ∧ (c.isDigit = true ∨ c = 'k' ∨ c = 'K')) ∧
       (∀ c ∈ rut.dropLast, c.isDigit = true)) := by
  unfold RutValidator.is_valid_rut
  by_cases hlen : 8 ≤ rut.length ∧ rut.length ≤ 9
  · have hne : rut ≠ [] := by
      intro heq
      rw [heq] at hlen
      simp at hlen
    obtain ⟨c0, hc0⟩ : ∃ c0, rut.getLast? = some c0 := by
      rcases h : rut.getLast? with _ | c0
      · exact absurd (List.getLast?_eq_none_iff.mp h) hne
      · exact ⟨c0, rfl⟩
    have hmaplast : (rut.map pyLower).getLast? = some (pyLower c0) := by
      rw [List.getLast?_map, hc0]
      rfl
    have hdlne : rut.dropLast.isEmpty = false := by
      have h1 := List.length_dropLast rut
      rcases hdl : rut.dropLast with _ | ⟨a, l⟩
      · rw [hdl] at h1
        simp at h1
        omega
      · rfl
    have hdigits : pyIsDigit (rut.dropLast.map pyLower) = rut.dropLast.all Char.isDigit := by
      unfold pyIsDigit
      rw [List.all_map, isEmpty_map, hdlne]
      simp only [Bool.not_false, Bool.true_and]
      congr 1
      funext c
      exact pyLower_isDigit c
    have hlen89 : rut.length = 8 ∨ rut.length = 9 := by omega
    have hd := pyLower_isDigit c0
    have hk := pyLower_eq_k c0
    simp only [List.length_map, hmaplast, ← List.map_dropLast, hdigits, hc0, hlen.1, hlen.2,
      decide_True, Bool.and_self, Bool.not_true, Bool.false_eq_true, if_false]
    rcases h1 : (pyLower c0).isDigit with _ | _ <;>
      rcases h2 : (pyLower c0 == 'k') with _ | _ <;>
      rcases h3 : rut.dropLast.all Char.isDigit with _ | _ <;>
      simp_all [List.all_eq_true]
  · have hcond : (!(decide (8 ≤ (rut.map pyLower).length) &&
        decide ((rut.map pyLower).length ≤ 9))) = true := by
      rw [List.length_map]
      rcases Nat.lt_or_ge rut.length 8 with h | h
      · simp
        omega
      · simp
        omega
    dsimp only
    rw [hcond]
    simp only [if_true]
    constructor
    · intro h
      exact absurd h (by simp)
    · rintro ⟨h89, -, -⟩
      exact absurd h89 (by omega)

/-- State of class `DelayManager` in `src/utils/delay_manager.py`: the
per-run registry mapping each identifier to its assigned minutes (a Python
dict, embedded as an association list with overwrite-on-repeat), and the
collision counter. -/
structure DelayManager where
  delay_registry : List (String × Int)
  delay_coincidences : Nat
deriving DecidableEq, Repr

/-- Python dict read: value stored for a key, if any. -/
def DelayManager.registry_lookup (reg : List (String × Int)) (k : String) : Option Int :=
  (reg.find? (fun p => p.1 == k)).map (fun p => p.2)

/-- Python dict assignment: overwrite the value when the key exists,
otherwise append the new binding. -/
def DelayManager.registry_insert (reg : List (String × Int)) (k : String) (v : Int) :
    List (String × Int) :=
  if reg.any (fun p => p.1 == k) then
    reg.map (fun p => if p.1 == k then (k, v) else p)
  else
    reg ++ [(k, v)]

/-- The draw-retry while-loop of `DelayManager.get_random_delay`.  `vals` is
the list of already assigned minutes, `draws i` the i-th result of
`random.randint(1, 20)` during this call, `attempts` the Python loop
counter, and `fuel` the remaining loop iterations (`max_attempts` minus
`attempts`).  Returns the last drawn value together with the final value of
`attempts`.  The fuel-zero case corresponds to the loop body not running,
which the source never reaches because `max_attempts` is the constant 10. -/
def DelayManager.delay_draw_loop (vals : List Int) (draws : Nat → Int) :
    Nat → Nat → Int × Nat
  | attempts, 0 => (draws attempts, attempts)
  | attempts, fuel + 1 =>
    let delay_minutes := draws attempts
    if vals.length = 0 || !(vals.contains delay_minutes) then
      (delay_minutes, attempts)
    else
      match fuel with
      | 0 => (delay_minutes, attempts + 1)
      | f + 1 => DelayManager.delay_draw_loop vals draws (attempts + 1) (f + 1)

/-- Model of `DelayManager.get_random_delay`: run the draw loop with 10
attempts against the currently registered minutes, count a coincidence when
the loop exhausted all attempts, and register the final value under the
identifier.  Returns the delay and the updated manager. -/
def DelayManager.get_random_delay (dm : DelayManager) (rut : String) (draws : Nat → Int) :
    Int × DelayManager :=
  let vals := dm.delay_registry.map (fun p => p.2)
  let result := DelayManager.delay_draw_loop vals draws 0 10
  let dm2 : DelayManager :=
    if result.2 = 10 then
      ⟨dm.delay_registry, dm.delay_coincidences + 1⟩
    else
      dm
  (result.1, ⟨DelayManager.registry_insert dm2.delay_registry rut result.1, dm2.delay_coincidences⟩)

/-- Helper: the loop always returns one of the drawn values. -/
theorem DelayManager.delay_draw_loop_result (vals : List Int) (draws : Nat → Int) :
    ∀ fuel attempts, ∃ k, (DelayManager.delay_draw_loop vals draws attempts fuel).1 = draws k := by
  intro fuel
  induction fuel with
  | zero => exact fun attempts => ⟨attempts, rfl⟩
  | succ f ih =>
    intro attempts
    unfold DelayManager.delay_draw_loop
    dsimp only
    split
    · exact ⟨attempts, rfl⟩
    · match f with
      | 0 => exact ⟨attempts, rfl⟩
      | g + 1 => exact ih (attempts + 1)

/-- Helper: when every draw is the same registered value, the loop runs all
its iterations and returns that value with the attempt counter advanced by
the whole fuel. -/
theorem DelayManager.delay_draw_loop_all_collide (vals : List Int) (draws : Nat → Int)
    (v : Int) (hdraws : ∀ i, draws i = v) (hmem : vals.contains v = true) :
    ∀ fuel attempts, fuel ≠ 0 →
      DelayManager.delay_draw_loop vals draws attempts fuel = (v, attempts + fuel) := by
  intro fuel
  induction fuel with
  | zero => intro attempts h; exact absurd rfl h
  | succ f ih =>
    intro attempts hne
    unfold DelayManager.delay_draw_loop
    dsimp only
    rw [hdraws attempts]
    have hvne : vals.length ≠ 0 := by
      intro h0
      rw [List.length_eq_zero] at h0
      rw [h0] at hmem
      simp [List.contains] at hmem
    rw [if_neg]
    · match f with
      | 0 => rfl
      | g + 1 =>
        show DelayManager.delay_draw_loop vals draws (attempts + 1) (g + 1) =
          (v, attempts + (g + 1 + 1))
        rw [ih (attempts + 1) (by omega)]
        congr 1
        omega
    · simp only [Bool.or_eq_true, decide_eq_true_eq, Bool.not_eq_true]
      push_neg
      exact ⟨hvne, by rw [hmem]; simp⟩

/-- Helper: inserting a binding keeps an unrelated head in place. -/
theorem DelayManager.registry_insert_cons_ne (p : String × Int) (l : List (String × Int))
    (k : String) (v : Int) (h : (p.1 == k) = false) :
    DelayManager.registry_insert (p :: l) k v = p :: DelayManager.registry_insert l k v := by
  unfold DelayManager.registry_insert
  simp only [List.any_cons, h, Bool.false_or, List.map_cons, if_neg, Bool.not_eq_true]
  split <;> simp [h]

/-- Helper: looking up a key immediately after inserting it returns the
inserted value. -/
theorem DelayManager.registry_lookup_insert (reg : List (String × Int)) (k : String) (v : Int) :
    DelayManager.registry_lookup (DelayManager.registry_insert reg k v) k = some v := by
  induction reg with
  | nil => simp [DelayManager.registry_insert, DelayManager.registry_lookup]
  | cons p l ih =>
    rcases hpk : (p.1 == k) with _ | _
    · rw [DelayManager.registry_insert_cons_ne p l k v hpk]
      unfold DelayManager.registry_lookup at *
      rw [List.find?_cons_of_neg _ (by simp [hpk])]
      exact ih
    · unfold DelayManager.registry_insert
      rw [if_pos (by simp [List.any_cons, hpk])]
      unfold DelayManager.registry_lookup
      simp only [List.map_cons, hpk, if_true]
      rw [List.find?_cons_of_pos _ (by simp)]
      rfl

/-- C6: every delay assignment returns one of the random draws, hence an
integer in the range 1 to 20 whenever the random source honours the
randint contract, and records that value in the registry under the
identifier; on an empty registry the first draw is accepted with no
collision counted; and when the random source is stubbed to one repeating
already-registered value, the loop exhausts its 10 attempts, the collision
counter is incremented exactly once, and the call still returns a value
(the embedded function is total, so no exception escapes). -/
theorem delay_assignment_properties
    (dm : DelayManager) (rut : String) (draws : Nat → Int)
    (hrange : ∀ i, 1 ≤ draws i ∧ draws i ≤ 20) :
    (1 ≤ (dm.get_random_delay rut draws).1 ∧ (dm.get_random_delay rut draws).1 ≤ 20) ∧
    DelayManager.registry_lookup (dm.get_random_delay rut draws).2.delay_registry rut =
      some (dm.get_random_delay rut draws).1 ∧
    (dm.delay_registry = [] →
      (dm.get_random_delay rut draws).1 = draws 0 ∧
      (dm.get_random_delay rut draws).2.delay_coincidences = dm.delay_coincidences) ∧
    ((∀ i, draws i = draws 0) →
      (dm.delay_registry.map (fun p => p.2)).contains (draws 0) = true →
      DelayManager.delay_draw_loop (dm.delay_registry.map (fun p => p.2)) draws 0 10 =
        (draws 0, 10) ∧
      (dm.get_random_delay rut draws).2.delay_coincidences = dm.delay_coincidences + 1) := by
  refine ⟨?_, ?_, ?_, ?_⟩
  · obtain ⟨k, hk⟩ := DelayManager.delay_draw_loop_result
      (dm.delay_registry.map (fun p => p.2)) draws 10 0
    unfold DelayManager.get_random_delay
    dsimp only
    rw [hk]
    exact hrange k
  · unfold DelayManager.get_random_delay
    dsimp only
    split <;> exact DelayManager.registry_lookup_insert _ _ _
  · intro hempty
    unfold DelayManager.get_random_delay
    rw [hempty]
    constructor <;> rfl
  · intro hconst hmem
    have hloop := DelayManager.delay_draw_loop_all_collide
      (dm.delay_registry.map (fun p => p.2)) draws (draws 0) hconst hmem 10 0 (by omega)
    refine ⟨hloop, ?_⟩
    unfold DelayManager.get_random_delay
    dsimp only
    rw [hloop]
    norm_num

/-- Witness for C6: one registered identifier with delay 5 and a random
source stuck at 5. -/
theorem delay_assignment_properties_witness :
    (1 ≤ ((DelayManager.mk [("11111111k", 5)] 0).get_random_delay "222222222" (fun _ => 5)).1 ∧
      ((DelayManager.mk [("11111111k", 5)] 0).get_random_delay "222222222" (fun _ => 5)).1 ≤ 20) ∧
    DelayManager.registry_lookup
      ((DelayManager.mk [("11111111k", 5)] 0).get_random_delay "222222222" (fun _ => 5)).2.delay_registry
      "222222222" =
      some ((DelayManager.mk [("11111111k", 5)] 0).get_random_delay "222222222" (fun _ => 5)).1 ∧
    ((DelayManager.mk [("11111111k", 5)] 0).delay_registry = [] →
      ((DelayManager.mk [("11111111k", 5)] 0).get_random_delay "222222222" (fun _ => 5)).1 = 5 ∧
      ((DelayManager.mk [("11111111k", 5)] 0).get_random_delay "222222222" (fun _ => 5)).2.delay_coincidences = 0) ∧
    ((∀ i : Nat, (5 : Int) = 5) →
      ((DelayManager.mk [("11111111k", 5)] 0).delay_registry.map (fun p => p.2)).contains 5 = true →
      DelayManager.delay_draw_loop
        ((DelayManager.mk [("11111111k", 5)] 0).delay_registry.map (fun p => p.2)) (fun _ => 5) 0 10 =
        (5, 10) ∧
      ((DelayManager.mk [("11111111k", 5)] 0).get_random_delay "222222222" (fun _ => 5)).2.delay_coincidences = 0 + 1) :=
  delay_assignment_properties (DelayManager.mk [("11111111k", 5)] 0) "222222222" (fun _ => 5)
    (fun _ => ⟨by norm_num, by norm_num⟩)

/-- Model of Python str.rstrip with the single character k: drop every
trailing letter k. -/
def pyRstripK (s : List Char) : List Char :=
  (s.reverse.dropWhile (fun c => c == 'k')).reverse

/-- The identifier normalisation used by `Config.get_email_destinations`:
lowercase, then strip all trailing letters k. -/
def rut_clean_of (s : List Char) : List Char :=
  pyRstripK (s.map pyLower)

/-- The slice of `Config` (src/config.py) that the destination logic reads:
the decoded primary address, the decoded special identifier (None when the
secret is unset or undecodable) and the decoded special address. -/
structure Config where
  email_address : String
  special_rut : Option (List Char)
  special_email : Option String
deriving DecidableEq, Repr

/-- Model of `Config.get_email_destinations`: the primary address always,
plus the special address when the special identifier is configured and
non-empty, the cleaned identifiers agree, and the special address is
configured and non-empty (Python truthiness of the two decoded values). -/
def Config.get_email_destinations (cfg : Config) (rut : List Char) : List String :=
  let rut_clean := rut_clean_of rut
  match cfg.special_rut with
  | none => [cfg.email_address]
  | some sr =>
    if sr.isEmpty then [cfg.email_address]
    else
      match cfg.special_email with
      | none => [cfg.email_address]
      | some se =>
        if rut_clean = rut_clean_of sr ∧ !se.isEmpty then
          [cfg.email_address, se]
        else
          [cfg.email_address]

/-- Destination selection inside `EmailService.send_email`
(src/services/email_service.py): debug mode forces the primary address
only; otherwise a truthy rut argument routes through
`Config.get_email_destinations`; otherwise a truthy explicit recipient is
used; otherwise the primary address. -/
def EmailService.email_destinations (debug_mode : Bool) (cfg : Config)
    (rut : Option (List Char)) (email_to : Option String) : List String :=
  if debug_mode then
    [cfg.email_address]
  else
    match rut with
    | some r =>
      if !r.isEmpty then cfg.get_email_destinations r
      else
        match email_to with
        | some e => if !e.isEmpty then [e] else [cfg.email_address]
        | none => [cfg.email_address]
    | none =>
      match email_to with
      | some e => if !e.isEmpty then [e] else [cfg.email_address]
      | none => [cfg.email_address]

/-- Modelled from the spec wording of C7: two identifiers denote the same
person when they agree case-insensitively after ignoring a trailing letter
k check character (at most one is ignored on each side).  This definition
follows the claim text and is compared against the code definition
`rut_clean_of`. -/
def spec_matches_special_identifier (a b : List Char) : Prop :=
  (if (a.map pyLower).getLast? = some 'k' then (a.map pyLower).dropLast else a.map pyLower) =
  (if (b.map pyLower).getLast? = some 'k' then (b.map pyLower).dropLast else b.map pyLower)

/-- Counterexample for C7: with special identifier 1234567k and special
address configured, the identifier 1234567kk receives the special address
(both strip to 1234567 since rstrip removes every trailing k), although it
does not equal the special identifier up to one trailing check character
as the claim states. -/
theorem email_destinations_trailing_k_counterexample :
    "special@x" ∈ (Config.mk "main@x" (some ("1234567k".data)) (some "special@x")).get_email_destinations ("1234567kk".data) ∧
    ¬ spec_matches_special_identifier ("1234567kk".data) ("1234567k".data) := by
  constructor
  · decide
  · unfold spec_matches_special_identifier
    decide

/-- C7 amended: in production mode with a configured non-empty special
identifier and special address, the destination list is the primary
address, extended by the special address exactly when the lowercased
identifiers agree after stripping every trailing letter k (the code strips
all trailing ks, not only one check character); the primary address is
always a destination; and in debug mode every notification goes to the
primary address only. -/
theorem email_destinations_production_and_debug
    (cfg : Config) (rut sr : List Char) (se : String)
    (hsr : cfg.special_rut = some sr) (hsrne : sr.isEmpty = false)
    (hse : cfg.special_email = some se) (hsene : se.isEmpty = false) :
    cfg.get_email_destinations rut =
      (if rut_clean_of rut = rut_clean_of sr then [cfg.email_address, se]
       else [cfg.email_address]) ∧
    cfg.email_address ∈ cfg.get_email_destinations rut ∧
    (rut.isEmpty = false → ∀ eto,
      EmailService.email_destinations false cfg (some rut) eto =
        cfg.get_email_destinations rut) ∧
    (∀ r eto, EmailService.email_destinations true cfg r eto = [cfg.email_address]) := by
  have hdest : cfg.get_email_destinations rut =
      (if rut_clean_of rut = rut_clean_of sr then [cfg.email_address, se]
       else [cfg.email_address]) := by
    unfold Config.get_email_destinations
    rw [hsr]
    dsimp only
    rw [if_neg (by simp [hsrne])]
    rw [hse]
    dsimp only
    split
    · rename_i hcond
      rw [if_pos]
      exact hcond.1
    · rename_i hcond
      rw [if_neg]
      intro heq
      exact hcond ⟨heq, by simp [hsene]⟩
  refine ⟨hdest, ?_, ?_, ?_⟩
  · rw [hdest]
    split <;> simp
  · intro hne eto
    unfold EmailService.email_destinations
    simp [hne]
  · intro r eto
    unfold EmailService.email_destinations
    simp

/-- Witness for the amended C7 at a concrete configuration: special
identifier 1234567k, identifier 1234567K. -/
theorem email_destinations_production_and_debug_witness :
    (Config.mk "main@x" (some ("1234567k".data)) (some "special@x")).get_email_destinations ("1234567K".data) =
      (if rut_clean_of ("1234567K".data) = rut_clean_of ("1234567k".data) then ["main@x", "special@x"]
       else ["main@x"]) ∧
    "main@x" ∈ (Config.mk "main@x" (some ("1234567k".data)) (some "special@x")).get_email_destinations ("1234567K".data) ∧
    (("1234567K".data).isEmpty = false → ∀ eto,
      EmailService.email_destinations false (Config.mk "main@x" (some ("1234567k".data)) (some "special@x")) (some ("1234567K".data)) eto =
        (Config.mk "main@x" (some ("1234567k".data)) (some "special@x")).get_email_destinations ("1234567K".data)) ∧
    (∀ r eto, EmailService.email_destinations true (Config.mk "main@x" (some ("1234567k".data)) (some "special@x")) r eto = ["main@x"]) :=
  email_destinations_production_and_debug
    (Config.mk "main@x" (some ("1234567k".data)) (some "special@x"))
    ("1234567K".data) ("1234567k".data) "special@x" rfl (by decide) rfl (by decide)

/-- Model of `EmailService.send_email`: compute the destinations, attempt
the SMTP transaction for each destination through the `transport` oracle
(ok for a delivered message, error for any raised transport exception,
which the per-destination try/except absorbs), count the deliveries, and
return whether at least one succeeded.  The subject and body do not
influence the result and are omitted.  The function is total: no transport
outcome makes it raise. -/
def EmailService.send_email (debug_mode : Bool) (cfg : Config)
    (rut : Option (List Char)) (email_to : Option String)
    (transport : String → Except String Unit) : Bool :=
  let dests := EmailService.email_destinations debug_mode cfg rut email_to
  let success_count : Nat := dests.foldl
    (fun n d =>
      match transport d with
      | Except.ok _ => n + 1
      | Except.error _ => n)
    0
  decide (success_count > 0)

/-- Helper: the delivery fold counts the destinations whose transport
attempt succeeded. -/
theorem send_email_fold_count (transport : String → Except String Unit)
    (l : List String) (n : Nat) :
    l.foldl
      (fun n d =>
        match transport d with
        | Except.ok _ => n + 1
        | Except.error _ => n)
      n =
    n + l.countP (fun d => (transport d).toBool) := by
  induction l generalizing n with
  | nil => simp
  | cons a l ih =>
    rcases h : transport a with e | u <;>
      simp [List.foldl_cons, List.countP_cons, h, ih, Except.toBool, Except.isOk]
    ring

/-- Observable steps of one identifier run: the minutes-scale random
delay, the seconds-scale retry backoff sleep, an invocation of the browser
action with its action kind, the three notification emails (the success
one also carries the discarded delivery boolean), and the completion log
line with its freshly determined action kind. -/
inductive Event where
  | delayWait (minutes : Int)
  | backoff (seconds : Int)
  | marcajeCall (action : String)
  | successEmail (action : String) (delivered : Bool)
  | reportSuccess (action : String)
  | errorEmail
  | skipEmail
deriving DecidableEq, Repr

/-- Model of `_determine_action_type` (identical in both services):
ENTRADA when the Chile local hour lies in [5, 12), otherwise SALIDA. -/
def _determine_action_type (hour : Nat) : String :=
  if 5 ≤ hour ∧ hour < 12 then "ENTRADA" else "SALIDA"

/-- Model of `RutValidator.is_rut_exception`: case-insensitive membership
in the exception list. -/
def RutValidator.is_rut_exception (rut : List Char) (exceptions : List (List Char)) : Bool :=
  (exceptions.map (fun e => e.map pyLower)).contains (rut.map pyLower)

/-- Environment of one `EnhancedMarcajeService.process_rut` call:
`retry_attempts` and `retry_delay_seconds` come from the execution
configuration; `marcaje i` is the outcome of the i-th browser-action
invocation (ok with its message, or the raised error); `hours i` is the
Chile hour at the i-th call of `_determine_action_type`; `delays a` the
minutes the delay manager assigns on attempt a (the manager itself is
modelled separately); `send_success_ok` the boolean returned by the
confirmation email send, which the code discards; `fail_time` the clock
value at which a final failure is recorded on the breaker. -/
structure ProcCtx where
  retry_attempts : Nat
  retry_delay_seconds : Int
  marcaje : Nat → Except String String
  hours : Nat → Nat
  delays : Nat → Int
  send_success_ok : Bool
  fail_time : Int

/-- Result of one identifier run: the boolean the orchestrator returns,
the observable events in order, and the breaker afterwards. -/
structure RunResult where
  ok : Bool
  events : List Event
  breaker : CircuitBreaker
deriving DecidableEq, Repr

/-- The retry for-loop of `EnhancedMarcajeService.process_rut` together
with its body `_process_rut_attempt`.  `a` is the Python loop index and
`fuel` the remaining iterations.  Each attempt applies the random delay
unless debug mode is on, determines the action kind from the hour at that
moment, and executes the marcaje: in debug mode `_execute_marcaje` always
returns a fabricated success message without contacting the browser, so
the outcome oracle is consulted only in production mode and debug attempts
can never fail or retry.  On success the attempt sends the confirmation
email (discarding its boolean) and reports completion with a freshly
determined kind while the breaker records the success; a failing attempt
with iterations left sleeps `retry_delay_seconds` and continues; the last
failing attempt records the failure on the breaker and sends the error
notification.  The fuel-zero base is the loop not running (only possible
with zero iterations configured), which falls through to return False with
no notification. -/
def EnhancedMarcajeService.attempt_loop (ctx : ProcCtx) (debug_mode : Bool)
    (cb : CircuitBreaker) : Nat → Nat → RunResult
  | _, 0 => ⟨false, [], cb⟩
  | a, fuel + 1 =>
    let pre : List Event := if debug_mode then [] else [Event.delayWait (ctx.delays a)]
    let act := _determine_action_type (ctx.hours a)
    match if debug_mode then Except.ok "DEBUG: simulated" else ctx.marcaje a with
    | Except.ok _msg =>
      ⟨true,
        pre ++ [Event.marcajeCall act, Event.successEmail act ctx.send_success_ok,
          Event.reportSuccess (_determine_action_type (ctx.hours (a + 1)))],
        cb.record_success⟩
    | Except.error _e =>
      if fuel = 0 then
        ⟨false, pre ++ [Event.marcajeCall act, Event.errorEmail],
          cb.record_failure ctx.fail_time⟩
      else
        let rest := EnhancedMarcajeService.attempt_loop ctx debug_mode cb (a + 1) fuel
        ⟨rest.ok,
          pre ++ [Event.marcajeCall act, Event.backoff ctx.retry_delay_seconds] ++ rest.events,
          rest.breaker⟩

/-- Model of `EnhancedMarcajeService.process_rut`: one circuit breaker gate
check before everything; when the gate rejects, the run stops with False
after only a log line (no notification event); otherwise the retry loop
runs with `retry_attempts + 1` iterations. -/
def EnhancedMarcajeService.process_rut (ctx : ProcCtx) (debug_mode : Bool)
    (cb : CircuitBreaker) (now : Int) : RunResult :=
  let gate := cb.can_execute now
  if gate.1 then
    EnhancedMarcajeService.attempt_loop ctx debug_mode gate.2 0 (ctx.retry_attempts + 1)
  else
    ⟨false, [], gate.2⟩

/-- Model of `MarcajeService.process_rut` (the non-enhanced service): skip
notification for identifiers in the exception list, otherwise delay unless
debug mode, one action attempt, and a success or error notification. -/
def MarcajeService.process_rut (exceptions : List (List Char)) (debug_mode : Bool)
    (rut : List Char) (delay : Int) (hour : Nat)
    (outcome : Except String String) (send_ok : Bool) : List Event :=
  if RutValidator.is_rut_exception rut exceptions then [Event.skipEmail]
  else
    let pre : List Event := if debug_mode then [] else [Event.delayWait delay]
    let act := _determine_action_type hour
    match outcome with
    | Except.ok _ => pre ++ [Event.marcajeCall act, Event.successEmail act send_ok]
    | Except.error _ => pre ++ [Event.marcajeCall act, Event.errorEmail]

/-- Whether an event is one of the three notification emails. -/
def Event.is_notify : Event → Bool
  | Event.successEmail _ _ => true
  | Event.errorEmail => true
  | Event.skipEmail => true
  | _ => false

/-- Number of notification emails in an event list. -/
def notify_count (events : List Event) : Nat :=
  events.countP Event.is_notify

/-- Action kinds of the browser-action invocations, in order. -/
def marcaje_actions (events : List Event) : List String :=
  events.filterMap (fun e =>
    match e with
    | Event.marcajeCall a => some a
    | _ => none)

/-- Durations of the retry backoff sleeps, in order. -/
def backoff_waits (events : List Event) : List Int :=
  events.filterMap (fun e =>
    match e with
    | Event.backoff s => some s
    | _ => none)


/-- Unfold equation of the retry loop at zero fuel. -/
theorem EnhancedMarcajeService.attempt_loop_zero (ctx : ProcCtx) (debug_mode : Bool)
    (cb : CircuitBreaker) (a : Nat) :
    EnhancedMarcajeService.attempt_loop ctx debug_mode cb a 0 = ⟨false, [], cb⟩ := rfl

/-- Unfold equation of the retry loop at positive fuel. -/
theorem EnhancedMarcajeService.attempt_loop_succ (ctx : ProcCtx) (debug_mode : Bool)
    (cb : CircuitBreaker) (a fuel : Nat) :
    EnhancedMarcajeService.attempt_loop ctx debug_mode cb a (fuel + 1) =
      (let pre : List Event := if debug_mode then [] else [Event.delayWait (ctx.delays a)]
       let act := _determine_action_type (ctx.hours a)
       match if debug_mode then Except.ok "DEBUG: simulated" else ctx.marcaje a with
       | Except.ok _msg =>
         ⟨true,
           pre ++ [Event.marcajeCall act, Event.successEmail act ctx.send_success_ok,
             Event.reportSuccess (_determine_action_type (ctx.hours (a + 1)))],
           cb.record_success⟩
       | Except.error _e =>
         if fuel = 0 then
           ⟨false, pre ++ [Event.marcajeCall act, Event.errorEmail],
             cb.record_failure ctx.fail_time⟩
         else
           let rest := EnhancedMarcajeService.attempt_loop ctx debug_mode cb (a + 1) fuel
           ⟨rest.ok,
             pre ++ [Event.marcajeCall act, Event.backoff ctx.retry_delay_seconds] ++ rest.events,
             rest.breaker⟩) := rfl

/-- Counterexample for C1: an identifier whose gate check is rejected by
an open circuit breaker (threshold 1, one failure at time 0, queried at
time 10, timeout 60) produces zero notification events: the enhanced
service only logs the rejection and returns False, it does not send the
failure notification the claim requires. -/
theorem breaker_rejection_sends_no_notification_counterexample :
    notify_count (EnhancedMarcajeService.process_rut
      (ProcCtx.mk 0 30 (fun _ => Except.error "boom") (fun _ => 9) (fun _ => 3) true 0)
      false ((CircuitBreaker.init 1 60).record_failure 0) 10).events = 0 ∧
    (EnhancedMarcajeService.process_rut
      (ProcCtx.mk 0 30 (fun _ => Except.error "boom") (fun _ => 9) (fun _ => 3) true 0)
      false ((CircuitBreaker.init 1 60).record_failure 0) 10).ok = false := by
  constructor <;> rfl

/-- Helper: every run of the retry loop emits exactly one notification. -/
theorem EnhancedMarcajeService.attempt_loop_notify (ctx : ProcCtx) (debug_mode : Bool) :
    ∀ fuel, fuel ≠ 0 → ∀ cb a,
      notify_count (EnhancedMarcajeService.attempt_loop ctx debug_mode cb a fuel).events = 1 := by
  intro fuel
  induction fuel with
  | zero => intro h; exact absurd rfl h
  | succ f ih =>
    intro h cb a
    rw [EnhancedMarcajeService.attempt_loop_succ]
    dsimp only
    cases debug_mode
    · rcases hm : ctx.marcaje a with e | m
      · by_cases hf : f = 0
        · simp [hm, hf, notify_count, Event.is_notify]
        · have hrest := ih hf cb (a + 1)
          simp only [notify_count] at hrest
          simp [hm, hf, notify_count, List.countP_append, Event.is_notify, hrest]
      · simp [hm, notify_count, Event.is_notify]
    · simp [notify_count, Event.is_notify]

/-- C1 amended: the base service emits exactly one notification per
identifier (skip, success or failure); the enhanced service emits exactly
one notification when the circuit breaker gate admits the run and zero
notifications when the gate rejects it (the rejection is only logged). -/
theorem notify_exactly_once_amended
    (ctx : ProcCtx) (debug_mode : Bool) (cb : CircuitBreaker) (now : Int)
    (exceptions : List (List Char)) (rut : List Char) (delay : Int) (hour : Nat)
    (outcome : Except String String) (send_ok : Bool) :
    notify_count
      (MarcajeService.process_rut exceptions debug_mode rut delay hour outcome send_ok) = 1 ∧
    notify_count (EnhancedMarcajeService.process_rut ctx debug_mode cb now).events =
      (if (cb.can_execute now).1 then 1 else 0) := by
  constructor
  · unfold MarcajeService.process_rut
    split
    · simp [notify_count, Event.is_notify]
    · rcases outcome with e | m <;> cases debug_mode <;>
        simp [notify_count, Event.is_notify]
  · unfold EnhancedMarcajeService.process_rut
    dsimp only
    rcases hgate : (cb.can_execute now).1 with _ | _
    · simp [notify_count]
    · simp only [if_true]
      exact EnhancedMarcajeService.attempt_loop_notify ctx debug_mode
        (ctx.retry_attempts + 1) (by omega) (cb.can_execute now).2 0

/-- Counterexample for C2: one identifier processed in production mode
(debug off, so the browser action really runs and may fail), two attempts
in one run (first fails, second succeeds), clock hour 11 at the first
attempt and 12 at the second: the first browser-action invocation uses
ENTRADA and the second uses SALIDA, so the action kind is re-evaluated
between retries and an attempt sequence crossing the hour boundary does
not keep its original kind. -/
theorem action_kind_changes_between_retries_counterexample :
    marcaje_actions (EnhancedMarcajeService.process_rut
      (ProcCtx.mk 1 30 (fun i => if i = 0 then Except.error "x" else Except.ok "done")
        (fun i => if i = 0 then 11 else 12) (fun _ => 1) true 0)
      false (CircuitBreaker.init 3 60) 0).events = ["ENTRADA", "SALIDA"] ∧
    ("ENTRADA" : String) ≠ "SALIDA" := by
  constructor
  · rfl
  · decide

/-- Helper: the browser-action invocations of one retry loop use the
action kind freshly determined from the hour at each attempt: they form an
initial segment of attempts a, a+1, ... each mapped through
`_determine_action_type` at its own hour. -/
theorem EnhancedMarcajeService.attempt_loop_actions (ctx : ProcCtx) (debug_mode : Bool) :
    ∀ fuel cb a, ∃ k, k ≤ fuel ∧ (fuel ≠ 0 → 1 ≤ k) ∧
      marcaje_actions (EnhancedMarcajeService.attempt_loop ctx debug_mode cb a fuel).events =
        (List.range k).map (fun i => _determine_action_type (ctx.hours (a + i))) := by
  intro fuel
  induction fuel with
  | zero =>
    intro cb a
    exact ⟨0, le_refl 0, fun h => absurd rfl h, by
      rw [EnhancedMarcajeService.attempt_loop_zero]
      simp [marcaje_actions]⟩
  | succ f ih =>
    intro cb a
    rw [EnhancedMarcajeService.attempt_loop_succ]
    dsimp only
    cases debug_mode
    · rcases hm : ctx.marcaje a with e | m
      · by_cases hf : f = 0
        · refine ⟨1, by omega, fun _ => le_refl 1, ?_⟩
          simp [hm, hf, marcaje_actions, List.filterMap_append, List.range_succ]
        · obtain ⟨k, hk1, hk2, hk3⟩ := ih cb (a + 1)
          refine ⟨k + 1, by omega, fun _ => by omega, ?_⟩
          have hfun : ((fun i => _determine_action_type (ctx.hours (a + i))) ∘ Nat.succ) =
              (fun i => _determine_action_type (ctx.hours (a + 1 + i))) := by
            funext i
            have hae : a + Nat.succ i = a + 1 + i := by omega
            simp [Function.comp, hae]
          have hrange : (List.range (k + 1)).map
              (fun i => _determine_action_type (ctx.hours (a + i))) =
              _determine_action_type (ctx.hours (a + 0)) ::
                (List.range k).map (fun i => _determine_action_type (ctx.hours (a + 1 + i))) := by
            rw [List.range_succ_eq_map, List.map_cons, List.map_map, hfun]
          rw [hrange]
          simp [hm, hf, marcaje_actions, List.filterMap_append]
          simpa [marcaje_actions] using hk3
      · refine ⟨1, by omega, fun _ => le_refl 1, ?_⟩
        simp [hm, marcaje_actions, List.filterMap_append, List.range_succ]
    · refine ⟨1, by omega, fun _ => le_refl 1, ?_⟩
      simp [marcaje_actions, List.filterMap_append, List.range_succ]

/-- C2 amended: the enhanced service determines the action kind anew inside
every attempt (and once more for the success report), so the sequence of
browser-action invocations in a run uses, at attempt i, the kind ENTRADA
exactly when the Chile hour at that attempt lies in [5, 12): the action
kinds are an initial segment of the per-attempt determinations, nonempty
whenever the breaker gate admitted the run.  The kind is not fixed once
before the loop, as the original claim stated. -/
theorem action_kind_redetermined_each_attempt
    (ctx : ProcCtx) (debug_mode : Bool) (cb : CircuitBreaker) (now : Int) :
    ∃ k, k ≤ ctx.retry_attempts + 1 ∧
      ((cb.can_execute now).1 = true → 1 ≤ k) ∧
      marcaje_actions (EnhancedMarcajeService.process_rut ctx debug_mode cb now).events =
        (List.range k).map (fun i => _determine_action_type (ctx.hours i)) := by
  unfold EnhancedMarcajeService.process_rut
  dsimp only
  rcases hgate : (cb.can_execute now).1 with _ | _
  · refine ⟨0, by omega, ?_, ?_⟩
    · intro h
      exact absurd h (by decide)
    · simp [marcaje_actions]
  · simp only [if_true]
    obtain ⟨k, hk1, hk2, hk3⟩ :=
      EnhancedMarcajeService.attempt_loop_actions ctx debug_mode
        (ctx.retry_attempts + 1) (cb.can_execute now).2 0
    refine ⟨k, hk1, fun _ => hk2 (by omega), ?_⟩
    rw [hk3]
    simp

/-- C5: in production mode (debug off, the only mode in which an attempt
can fail), with retry_attempts = 2 (three attempts maximum), a closed
breaker gate, and a browser action failing on its first two invocations
and succeeding on the third, the enhanced service reports success, the
action is invoked exactly 3 times, and exactly 2 backoff waits of the
configured retry_delay_seconds occur between the attempts; the action is
not invoked again after the success. -/
theorem retry_twice_then_succeed
    (ctx : ProcCtx) (cb : CircuitBreaker) (now : Int)
    (e0 e1 msg : String)
    (hra : ctx.retry_attempts = 2)
    (hm0 : ctx.marcaje 0 = Except.error e0)
    (hm1 : ctx.marcaje 1 = Except.error e1)
    (hm2 : ctx.marcaje 2 = Except.ok msg)
    (hcb : cb.state = CBState.closed) :
    (EnhancedMarcajeService.process_rut ctx false cb now).ok = true ∧
    (marcaje_actions (EnhancedMarcajeService.process_rut ctx false cb now).events).length = 3 ∧
    backoff_waits (EnhancedMarcajeService.process_rut ctx false cb now).events =
      [ctx.retry_delay_seconds, ctx.retry_delay_seconds] := by
  have hgate : cb.can_execute now = (true, cb) := by
    unfold CircuitBreaker.can_execute
    rw [hcb]
  unfold EnhancedMarcajeService.process_rut
  dsimp only
  rw [hgate, hra]
  refine ⟨?_, ?_, ?_⟩ <;>
    simp [EnhancedMarcajeService.attempt_loop, hm0, hm1, hm2, marcaje_actions, backoff_waits,
      List.filterMap_append]

/-- Witness for C5 with a concrete stub that fails twice then succeeds,
run in production mode. -/
theorem retry_twice_then_succeed_witness :
    (EnhancedMarcajeService.process_rut
      (ProcCtx.mk 2 30 (fun i => if i < 2 then Except.error "x" else Except.ok "done")
        (fun _ => 9) (fun _ => 1) true 0)
      false (CircuitBreaker.init 3 60) 0).ok = true ∧
    (marcaje_actions (EnhancedMarcajeService.process_rut
      (ProcCtx.mk 2 30 (fun i => if i < 2 then Except.error "x" else Except.ok "done")
        (fun _ => 9) (fun _ => 1) true 0)
      false (CircuitBreaker.init 3 60) 0).events).length = 3 ∧
    backoff_waits (EnhancedMarcajeService.process_rut
      (ProcCtx.mk 2 30 (fun i => if i < 2 then Except.error "x" else Except.ok "done")
        (fun _ => 9) (fun _ => 1) true 0)
      false (CircuitBreaker.init 3 60) 0).events = [30, 30] :=
  retry_twice_then_succeed
    (ProcCtx.mk 2 30 (fun i => if i < 2 then Except.error "x" else Except.ok "done")
      (fun _ => 9) (fun _ => 1) true 0)
    (CircuitBreaker.init 3 60) 0 "x" "x" "done" rfl rfl rfl rfl rfl

/-- C8: send_email is a total boolean function of the transport outcomes:
it returns true exactly when at least one destination accepted the
message, and in particular returns false instead of raising when every
transport attempt fails; and an identifier whose clock action succeeded on
its first attempt is still reported as a processing success even though
the confirmation email send returned false, with the undelivered
confirmation recorded in the run events. -/
theorem email_failure_contained
    (debug_mode : Bool) (cfg : Config) (rut : Option (List Char)) (email_to : Option String)
    (transport : String → Except String Unit)
    (ctx : ProcCtx) (cb : CircuitBreaker) (now : Int) (msg : String)
    (hgate : (cb.can_execute now).1 = true)
    (hm : ctx.marcaje 0 = Except.ok msg)
    (hmail : ctx.send_success_ok = false) :
    (EmailService.send_email debug_mode cfg rut email_to transport = true ↔
      ∃ d ∈ EmailService.email_destinations debug_mode cfg rut email_to,
        (transport d).toBool = true) ∧
    (EnhancedMarcajeService.process_rut ctx debug_mode cb now).ok = true ∧
    Event.successEmail (_determine_action_type (ctx.hours 0)) false ∈
      (EnhancedMarcajeService.process_rut ctx debug_mode cb now).events := by
  have hrun : (EnhancedMarcajeService.process_rut ctx debug_mode cb now) =
      ⟨true,
        (if debug_mode then [] else [Event.delayWait (ctx.delays 0)]) ++
          [Event.marcajeCall (_determine_action_type (ctx.hours 0)),
            Event.successEmail (_determine_action_type (ctx.hours 0)) ctx.send_success_ok,
            Event.reportSuccess (_determine_action_type (ctx.hours (0 + 1)))],
        (cb.can_execute now).2.record_success⟩ := by
    unfold EnhancedMarcajeService.process_rut
    dsimp only
    rw [if_pos hgate, EnhancedMarcajeService.attempt_loop_succ]
    cases debug_mode <;> simp [hm]
  refine ⟨?_, ?_, ?_⟩
  · unfold EmailService.send_email
    dsimp only
    rw [send_email_fold_count]
    simp only [Nat.zero_add, decide_eq_true_eq]
    exact List.countP_pos_iff
  · rw [hrun]
  · rw [hrun, hmail]
    cases debug_mode <;> simp

/-- Witness for C8: a transport that fails for every destination, a first
attempt that succeeds, and a confirmation send that reports failure. -/
theorem email_failure_contained_witness :
    (EmailService.send_email false (Config.mk "main@x" none none) none none
        (fun _ => Except.error "down") = true ↔
      ∃ d ∈ EmailService.email_destinations false (Config.mk "main@x" none none) none none,
        ((fun _ => (Except.error "down" : Except String Unit)) d).toBool = true) ∧
    (EnhancedMarcajeService.process_rut
      (ProcCtx.mk 0 30 (fun _ => Except.ok "done") (fun _ => 9) (fun _ => 1) false 0)
      false (CircuitBreaker.init 3 60) 0).ok = true ∧
    Event.successEmail
        (_determine_action_type ((ProcCtx.mk 0 30 (fun _ => Except.ok "done")
          (fun _ => 9) (fun _ => 1) false 0).hours 0)) false ∈
      (EnhancedMarcajeService.process_rut
        (ProcCtx.mk 0 30 (fun _ => Except.ok "done") (fun _ => 9) (fun _ => 1) false 0)
        false (CircuitBreaker.init 3 60) 0).events :=
  email_failure_contained false (Config.mk "main@x" none none) none none
    (fun _ => Except.error "down")
    (ProcCtx.mk 0 30 (fun _ => Except.ok "done") (fun _ => 9) (fun _ => 1) false 0)
    (CircuitBreaker.init 3 60) 0 "done" rfl rfl rfl
